import Mathlib

/-!
Shallow embedding of the pockystation-libretro session layer (src/lib.rs).

The embedding covers the parts of the core exercised by the specification:
the audio batching sink (`AudioBackend`), the RTC host synchronization
(`sync_host_rtc` and the countdown logic of `render_frame`), the framebuffer
conversion of `render_frame`, BIOS discovery (`find_bios`), and the savestate
restore path (`load_state`).

Machine integers are modelled as `Nat`/`Int` with explicit wrapping where the
source can overflow; Rust panics (out-of-bounds indexing, `Option::unwrap` on
`None`) are modelled as `Option.none` results; host resources (directory
contents, wall-clock time, decoded savestates) are explicit parameters.
--/

set_option autoImplicit false

namespace Pocky

/-! ## Audio batching sink (src/lib.rs lines 516-548) -/

/-- Embedding of `struct AudioBackend`.  The Rust field `buffer : [i16; 2048]`
is modelled as a total function from indices to sample values (out-of-bounds
accesses are guarded explicitly, mirroring Rust's panicking index checks);
`pos : u16` is a `Nat` (the reachable values stay far below `2^16`, see the
cursor-invariant theorem). -/
structure AudioBackend where
  buffer : Nat → Int
  pos : Nat

/-- Embedding of `AudioBackend::new`: zeroed buffer, cursor 0. -/
def AudioBackend.new : AudioBackend := ⟨fun _ => 0, 0⟩

/-- Pointwise store into the modelled buffer, `self.buffer[i] = v`. -/
def bufWrite (b : Nat → Int) (i : Nat) (v : Int) : Nat → Int :=
  fun j => if j = i then v else b j

/-- Embedding of `AudioBackend::push_sample` (dac::Backend impl).  The result
is `none` when a buffer index would be out of bounds (a Rust panic); otherwise
`some (new backend, flushed buffer if the cursor reached capacity)`.  The
buffer length `2048` is the array length `[i16; 2048]` of the source. -/
def push_sample (b : AudioBackend) (sample : Int) :
    Option (AudioBackend × Option (Nat → Int)) :=
  let pos := b.pos
  -- self.buffer[pos] = sample; self.buffer[pos + 1] = sample;
  -- both indexing operations panic unless the index is below 2048.
  if pos + 1 < 2048 then
    let buffer := bufWrite (bufWrite b.buffer pos sample) (pos + 1) sample
    let pos := b.pos + 2
    -- if self.pos == self.buffer.len() as u16 { flush; self.pos = 0 }
    if pos = 2048 then some (⟨buffer, 0⟩, some buffer)
    else some (⟨buffer, pos⟩, none)
  else none

/-- Iterated `push_sample` over a list of samples, collecting the flushed
buffers in order; `none` as soon as one push panics. -/
def pushAll : AudioBackend → List Int → Option (AudioBackend × List (Nat → Int))
  | b, [] => some (b, [])
  | b, s :: rest =>
    match push_sample b s with
    | none => none
    | some (b', f) =>
      match pushAll b' rest with
      | none => none
      | some (b'', fs) => some (b'', f.toList ++ fs)

/-- The buffer contents produced by writing each sample of `L` twice at
consecutive positions starting at `p` (the net effect of a run of
`push_sample` calls on the buffer). -/
def writeDupF : (Nat → Int) → Nat → List Int → (Nat → Int)
  | buf, _, [] => buf
  | buf, p, s :: rest => writeDupF (bufWrite (bufWrite buf p s) (p + 1) s) (p + 2) rest

/-! ## RTC host synchronization (src/lib.rs lines 364-404, 412-419, 557-559) -/

/-- Host wall-clock time as delivered by `time::now()` (a C `struct tm`);
every field is a machine integer (`c_int`), modelled as `Int`. -/
structure Tm where
  tm_sec : Int
  tm_min : Int
  tm_hour : Int
  tm_mday : Int
  tm_mon : Int
  tm_year : Int
  tm_wday : Int
deriving DecidableEq

/-- Rust `as u8` cast: the low 8 bits of the two's-complement value
(`%` on `Int` is the always-nonnegative Euclidean remainder). -/
def asU8 (x : Int) : Nat := (x % 256).toNat

/-- Modelled from the spec: `Bcd::from_binary` of the external emulation
engine ("BCD (binary-coded decimal): encoding where each decimal digit
occupies its own 4-bit nibble").  Two BCD digits hold 0-99; larger binary
values are out of range and the conversion fails.  The returned value is the
packed BCD byte (`Bcd::bcd()`). -/
def Bcd.from_binary (b : Nat) : Option Nat :=
  if b ≤ 99 then some (b / 10 * 16 + b % 10) else none

/-- The set of register/RAM writes performed by one RTC host synchronization:
the century byte stored at RAM address 0xcf and the seven RTC registers, all
as packed BCD bytes. -/
structure RtcWrite where
  century : Nat
  seconds : Nat
  minutes : Nat
  hours : Nat
  week_day : Nat
  day : Nat
  month : Nat
  year : Nat
deriving DecidableEq

/-- Embedding of `Context::sync_host_rtc`.  Each `Bcd::from_binary(..).unwrap()`
of the source panics when the conversion fails; the panic is modelled by the
whole operation returning `none`.  Divisions mirror Rust's truncating `i32`
arithmetic (`Int.tdiv` / `Int.tmod`). -/
def sync_host_rtc (now : Tm) : Option RtcWrite := do
  let year := now.tm_year + 1900
  -- let century = (year / 100) as u8; Bcd::from_binary(century).unwrap()
  let century ← Bcd.from_binary (asU8 (Int.tdiv year 100))
  -- let year = (year % 100) as u8;
  let year2 := asU8 (Int.tmod year 100)
  -- match now.tm_sec { s @ 0...59 => s as u8, _ => 59 }
  let secs : Nat := if 0 ≤ now.tm_sec ∧ now.tm_sec ≤ 59 then now.tm_sec.toNat else 59
  let seconds ← Bcd.from_binary secs
  let minutes ← Bcd.from_binary (asU8 now.tm_min)
  let hours ← Bcd.from_binary (asU8 now.tm_hour)
  let week_day ← Bcd.from_binary (asU8 now.tm_wday + 1)
  let day ← Bcd.from_binary (asU8 now.tm_mday + 1)
  let month ← Bcd.from_binary (asU8 now.tm_mon + 1)
  let year3 ← Bcd.from_binary year2
  some ⟨century, seconds, minutes, hours, week_day, day, month, year3⟩

/-- Embedding of `const RTC_SYNC_DELAY_FRAMES: u32 = 60`. -/
def RTC_SYNC_DELAY_FRAMES : Nat := 60

/-- Embedding of the RTC-sync portion of `Context::render_frame` (lines
412-419): when sync is enabled and the counter is zero, `sync_host_rtc` runs
and the counter is set to `RTC_SYNC_DELAY_FRAMES`; then (in either branch) the
counter is decremented once.  The result is `none` when `sync_host_rtc`
panicked (the panic propagates out of `render_frame`); otherwise
`some (new counter, registers written if a sync happened)`. -/
def render_frame_rtc (rtc_host_sync : Bool) (rtc_sync_counter : Nat) (now : Tm) :
    Option (Nat × Option RtcWrite) :=
  if rtc_host_sync then
    let r : Option (Nat × Option RtcWrite) :=
      if rtc_sync_counter = 0 then
        match sync_host_rtc now with
        | none => none
        | some w => some (RTC_SYNC_DELAY_FRAMES, some w)
      else some (rtc_sync_counter, none)
    match r with
    | none => none
    | some (c, w) => some (c - 1, w)     -- self.rtc_sync_counter -= 1;
  else some (rtc_sync_counter, none)

/-! ## Framebuffer conversion (src/lib.rs lines 424-448) -/

/-- Offset transformation of the rotation branch:
`if rotate { off = 32 * 32 - off - 1 }`. -/
def rotOff (rotate : Bool) (off : Nat) : Nat :=
  if rotate then 32 * 32 - off - 1 else off

/-- A single `fb_out[off] = 0xffffff` store, on the output image modelled as a
function from offsets to pixel values. -/
def fbWrite (out : Nat → Nat) (off : Nat) : Nat → Nat :=
  fun j => if j = off then 0xffffff else out j

/-- Inner loop of the framebuffer conversion: one row `y`, iterating
`x in 0..32` and writing a white pixel wherever the bit is 0. -/
def innerRow (rotate : Bool) (fb : Nat → Nat) (y : Nat) (out : Nat → Nat) : Nat → Nat :=
  (List.range 32).foldl
    (fun out x =>
      if (fb y >>> x) % 2 = 0 then fbWrite out (rotOff rotate (y * 32 + x)) else out)
    out

/-- Embedding of the framebuffer conversion of `Context::render_frame`: the
output starts as `[0u32; 32 * 32]` and the double loop writes `0xffffff` at
the (possibly rotated) offset of every 0 bit.  `fb y` is row `y` of the
32x32 1-bit framebuffer, one bit per pixel. -/
def render_frame_fb (rotate : Bool) (fb : Nat → Nat) : Nat → Nat :=
  (List.range 32).foldl (fun out y => innerRow rotate fb y out) (fun _ => 0)

/-! ## BIOS discovery (src/lib.rs lines 172-256) -/

/-- A loaded BIOS image, abstracted to an identity (the engine's `Bios` type
is opaque to the session layer beyond accept/reject). -/
structure Bios where
  id : Nat
deriving DecidableEq

/-- Modelled from the spec: `BIOS_SIZE` of the external emulation engine (the
"exact expected firmware size"); the claims do not depend on the value. -/
def BIOS_SIZE : Nat := 16384

/-- One readable directory entry: its metadata (regular-file flag and byte
length) together with the outcome that opening, reading and content
recognition (`Context::try_bios`, `Bios::new`) would produce for it. -/
structure DirEntry where
  is_file : Bool
  len : Nat
  bios : Option Bios
deriving DecidableEq

/-- One item of the directory iteration: either an I/O error (an `Err` entry
or a failing `metadata()` call, both skipped with a warning) or a readable
entry. -/
inductive EntryResult where
  | err : EntryResult
  | ok : DirEntry → EntryResult
deriving DecidableEq

/-- Modelled from the spec: `Context::try_bios` reads the candidate file and
applies content recognition; its outcome is abstracted as the entry's
precomputed `bios` field. -/
def try_bios (e : DirEntry) : Option Bios := e.bios

/-- The `for entry in dir` loop of `Context::find_bios`: skip errors,
non-files and wrong-size files; try the rest and return the first accepted
BIOS. -/
def find_bios_loop : List EntryResult → Option Bios
  | [] => none
  | .err :: rest => find_bios_loop rest
  | .ok e :: rest =>
    if e.is_file then
      if e.len = BIOS_SIZE then
        match try_bios e with
        | some bios => some bios
        | none => find_bios_loop rest
      else find_bios_loop rest
    else find_bios_loop rest

/-- Embedding of `Context::find_bios`.  `sysdir = none` models either a
missing system directory or a failing `read_dir`; otherwise the scan runs over
the listed entries. -/
def find_bios (sysdir : Option (List EntryResult)) : Option Bios :=
  match sysdir with
  | none => none
  | some entries => find_bios_loop entries

/-- Stated from the spec's words, for comparison with `find_bios`: the value a
directory entry contributes as a firmware candidate — only regular files of
exactly the expected size are considered, and a considered file contributes
its recognized content. -/
def candidateBios (r : EntryResult) : Option Bios :=
  match r with
  | .err => none
  | .ok e => if e.is_file = true ∧ e.len = BIOS_SIZE then try_bios e else none

/-- Stated from the spec's words: the first candidate, in iteration order,
that the recognizer accepts. -/
def firstValidBios (entries : List EntryResult) : Option Bios :=
  entries.findSome? candidateBios

/-! ## Savestates (src/lib.rs lines 290-347, 470-480) -/

/-- Embedding of the engine's `Cpu` as seen by the session layer: the BIOS
image, the flash (storage) contents, the attached DAC audio backend, and the
rest of the machine state (registers, bus, peripherals) abstracted as `core`. -/
structure Cpu where
  bios : Bios
  flash : List Nat
  dac_backend : AudioBackend
  core : Nat

/-- Embedding of `struct Context` (the session adapter). -/
structure Context where
  cpu : Cpu
  rtc_host_sync : Bool
  lcd_rotation_en : Bool
  rtc_sync_counter : Nat
  savestate_max_len : Nat

/-- Modelled from the spec: the savestate payload produced by the codec
(src/savestate.rs, not part of the sources here) — "the engine's entire
internal state ... excluding the firmware image and excluding the audio sink
handle". -/
structure Savestate where
  core : Nat
  flash : List Nat

/-- Modelled from the spec: encoding the machine state (`Cpu::encode`). -/
def encode (cpu : Cpu) : Savestate := ⟨cpu.core, cpu.flash⟩

/-- Modelled from the spec: decoding a machine state (`Decodable::decode`);
the decoded `Cpu` carries placeholder foreign resources, which `load_state`
replaces before activation. -/
def decode (s : Savestate) : Cpu := ⟨⟨0⟩, s.flash, AudioBackend.new, s.core⟩

/-- The possible outcomes of the decoding phase of `Context::load_state`:
`Decoder::new` failure, `Decodable::decode` failure, or a decoded `Cpu`. -/
inductive DecodeOutcome where
  | ctorFail : DecodeOutcome
  | decodeFail : DecodeOutcome
  | ok : Cpu → DecodeOutcome

/-- Embedding of `Context::save_state` (the encoder construction and write
sink are not modelled; encoding itself is `encode`). -/
def save_state (self : Context) : Savestate := encode self.cpu

/-- Embedding of `Context::load_state` (also `unserialize`, which forwards to
it).  `input` is the outcome of decoder construction plus decode; `sysdir` is
the system directory contents seen by the `find_bios` call that re-attaches
the firmware.  Returns the updated adapter and a success flag (`Ok`/`Err`);
on `Err` the adapter is returned as it was, mirroring `&mut self` being left
untouched. -/
def load_state (self : Context) (input : DecodeOutcome)
    (sysdir : Option (List EntryResult)) : Context × Bool :=
  match input with
  | .ctorFail => (self, false)
  | .decodeFail => (self, false)
  | .ok cpu =>
    match find_bios sysdir with
    | none => (self, false)
    | some bios =>
      -- let flash = self.cpu.interconnect().flash().data().clone();
      let flash := self.cpu.flash
      -- cpu.interconnect_mut().set_bios(bios); ... set_data(flash); ... set_backend(new)
      let cpu : Cpu := { cpu with bios := bios, flash := flash, dac_backend := AudioBackend.new }
      ({ self with cpu := cpu }, true)

/-- The engine-visible state a deterministic engine steps on: BIOS, flash and
the abstract machine core — everything of `Cpu` except the write-only audio
sink. -/
def visibleState (cpu : Cpu) : Bios × List Nat × Nat :=
  (cpu.bios, cpu.flash, cpu.core)

/-- Modelled from the spec: the per-frame loop as a deterministic engine — an
arbitrary step function consumes one frame's input, and an arbitrary render
function reads the frame out of the engine state ("a deterministic,
replayable execution stream"). -/
def runFrames (step : Bios × List Nat × Nat → Nat → Bios × List Nat × Nat)
    (render : Bios × List Nat × Nat → List Nat) :
    Bios × List Nat × Nat → List Nat → List (List Nat)
  | _, [] => []
  | s, i :: rest =>
    let s' := step s i
    render s' :: runFrames step render s' rest

/-! ## Concrete sample values used by witnesses and counterexamples -/

/-- A host time with an out-of-range minutes field (100): `Bcd::from_binary`
receives a value above 99. -/
def tmBadMin : Tm := ⟨30, 100, 12, 5, 6, 90, 2⟩

/-- A leap-second host time: seconds = 61, every other field in range
(June 15 2026, 12:30, Wednesday). -/
def tmLeap : Tm := ⟨61, 30, 12, 15, 5, 126, 3⟩

/-- The register writes `sync_host_rtc` produces for `tmLeap`. -/
def wLeap : RtcWrite := ⟨32, 89, 48, 18, 4, 22, 6, 38⟩

/-- An in-range host time (Jan 2 2000, 03:04:05, Sunday). -/
def tmGood : Tm := ⟨5, 4, 3, 2, 0, 100, 0⟩

/-- The register writes `sync_host_rtc` produces for `tmGood`. -/
def wGood : RtcWrite := ⟨32, 5, 4, 3, 1, 3, 1, 0⟩

/-- A concrete live adapter whose engine holds BIOS 1. -/
def ctxA : Context :=
  { cpu := ⟨⟨1⟩, [10, 20], AudioBackend.new, 7⟩
    rtc_host_sync := false
    lcd_rotation_en := true
    rtc_sync_counter := 0
    savestate_max_len := 4096 }

/-- A decoded savestate `Cpu` distinct from `ctxA`'s in every component. -/
def cpuB : Cpu := ⟨⟨5⟩, [99, 98], AudioBackend.new, 42⟩

/-- A system directory holding exactly one valid BIOS, with id 2. -/
def sysB : Option (List EntryResult) :=
  some [.ok ⟨true, BIOS_SIZE, some ⟨2⟩⟩]

/-- A system directory whose only valid BIOS is `ctxA`'s own (id 1). -/
def sysA : Option (List EntryResult) :=
  some [.err, .ok ⟨true, BIOS_SIZE, some ⟨1⟩⟩]

/-- A framebuffer whose only set bit is bit 0 of row 0. -/
def fbOne : Nat → Nat := fun y => if y = 0 then 1 else 0

/-- Directory noise: a read error, a wrong-size file that would be
recognized, a right-size non-file, and a right-size file the recognizer
rejects — none of them firmware candidates that get accepted. -/
def dirNoise : List EntryResult :=
  [.err, .ok ⟨true, 5, some ⟨9⟩⟩, .ok ⟨false, BIOS_SIZE, some ⟨9⟩⟩,
   .ok ⟨true, BIOS_SIZE, none⟩]

/-- A valid firmware entry with id 3. -/
def eGood : DirEntry := ⟨true, BIOS_SIZE, some ⟨3⟩⟩

/-- A trailing valid firmware (id 4) that must not shadow the first one. -/
def dirTail : List EntryResult := [.ok ⟨true, BIOS_SIZE, some ⟨4⟩⟩]

/-- 1024 concrete mono samples. -/
def L1024 : List Int := List.replicate 1024 3

/-- 1023 concrete mono samples. -/
def L1023 : List Int := List.replicate 1023 4

/-! ## Helper lemmas -/

theorem Bcd.from_binary_of_le {b : Nat} (h : b ≤ 99) :
    Bcd.from_binary b = some (b / 10 * 16 + b % 10) := if_pos h

theorem asU8_eq_toNat {x : Int} (h0 : 0 ≤ x) (h : x < 256) : asU8 x = x.toNat := by
  unfold asU8
  rw [Int.emod_eq_of_lt h0 h]

theorem asU8_le_99 {x : Int} (h0 : 0 ≤ x) (h : x ≤ 99) : asU8 x ≤ 99 := by
  rw [asU8_eq_toNat h0 (by omega)]
  omega

theorem sync_host_rtc_isSome (now : Tm)
    (hmin0 : 0 ≤ now.tm_min) (hmin : now.tm_min ≤ 59)
    (hhour0 : 0 ≤ now.tm_hour) (hhour : now.tm_hour ≤ 23)
    (hwday0 : 0 ≤ now.tm_wday) (hwday : now.tm_wday ≤ 6)
    (hmday0 : 1 ≤ now.tm_mday) (hmday : now.tm_mday ≤ 31)
    (hmon0 : 0 ≤ now.tm_mon) (hmon : now.tm_mon ≤ 11)
    (hyear0 : 0 ≤ now.tm_year + 1900) (hyear : now.tm_year + 1900 ≤ 9999) :
    (sync_host_rtc now).isSome = true := by
  have hdiv0 : 0 ≤ Int.tdiv (now.tm_year + 1900) 100 :=
    Int.tdiv_nonneg hyear0 (by norm_num)
  have hdiv99 : Int.tdiv (now.tm_year + 1900) 100 ≤ 99 := by
    rw [Int.tdiv_eq_ediv hyear0 (by norm_num)]
    omega
  have h1 : asU8 (Int.tdiv (now.tm_year + 1900) 100) ≤ 99 := asU8_le_99 hdiv0 hdiv99
  have h2 : (if 0 ≤ now.tm_sec ∧ now.tm_sec ≤ 59 then now.tm_sec.toNat else 59) ≤ 99 := by
    split <;> omega
  have h3 : asU8 now.tm_min ≤ 99 := asU8_le_99 hmin0 (by omega)
  have h4 : asU8 now.tm_hour ≤ 99 := asU8_le_99 hhour0 (by omega)
  have hw : asU8 now.tm_wday = now.tm_wday.toNat := asU8_eq_toNat hwday0 (by omega)
  have hd : asU8 now.tm_mday = now.tm_mday.toNat := asU8_eq_toNat (by omega) (by omega)
  have hm : asU8 now.tm_mon = now.tm_mon.toNat := asU8_eq_toNat hmon0 (by omega)
  have hmod0 : 0 ≤ Int.tmod (now.tm_year + 1900) 100 := Int.tmod_nonneg 100 hyear0
  have hmod99 : Int.tmod (now.tm_year + 1900) 100 ≤ 99 := by
    have := Int.tmod_lt_of_pos (now.tm_year + 1900) (show (0:Int) < 100 by norm_num)
    omega
  have h8 : asU8 (Int.tmod (now.tm_year + 1900) 100) ≤ 99 := asU8_le_99 hmod0 hmod99
  simp only [sync_host_rtc, Bcd.from_binary, bind, Option.bind]
  rw [if_pos h1, if_pos h2, if_pos h3, if_pos h4,
    if_pos (show asU8 now.tm_wday + 1 ≤ 99 by rw [hw]; omega),
    if_pos (show asU8 now.tm_mday + 1 ≤ 99 by rw [hd]; omega),
    if_pos (show asU8 now.tm_mon + 1 ≤ 99 by rw [hm]; omega), if_pos h8]
  rfl

theorem writeDupF_lt : ∀ (L : List Int) (buf : Nat → Int) (p i : Nat), i < p →
    writeDupF buf p L i = buf i := by
  intro L
  induction L with
  | nil => intro buf p i _; rfl
  | cons s rest ih =>
    intro buf p i h
    simp only [writeDupF]
    rw [ih _ (p + 2) i (by omega)]
    simp only [bufWrite]
    rw [if_neg (by omega : ¬ i = p + 1), if_neg (by omega : ¬ i = p)]

theorem writeDupF_in : ∀ (L : List Int) (buf : Nat → Int) (p i : Nat),
    p ≤ i → i < p + 2 * L.length →
    writeDupF buf p L i = L.getD ((i - p) / 2) 0 := by
  intro L
  induction L with
  | nil =>
    intro buf p i h1 h2
    simp only [List.length_nil, Nat.mul_zero, Nat.add_zero] at h2
    omega
  | cons s rest ih =>
    intro buf p i h1 h2
    simp only [List.length_cons] at h2
    simp only [writeDupF]
    by_cases hc : i < p + 2
    · rw [writeDupF_lt rest _ (p + 2) i hc]
      have h0 : (i - p) / 2 = 0 := by omega
      rw [h0]
      simp only [bufWrite, List.getD_cons_zero]
      rcases (show i = p + 1 ∨ i = p by omega) with h | h
      · subst h; rw [if_pos rfl]
      · subst h; rw [if_neg (by omega), if_pos rfl]
    · rw [ih _ (p + 2) i (by omega) (by omega)]
      have hstep : (i - p) / 2 = (i - (p + 2)) / 2 + 1 := by omega
      rw [hstep, List.getD_cons_succ]

theorem pushAll_no_flush : ∀ (L : List Int) (b : AudioBackend),
    b.pos + 2 * L.length < 2048 →
    pushAll b L = some (⟨writeDupF b.buffer b.pos L, b.pos + 2 * L.length⟩, []) := by
  intro L
  induction L with
  | nil =>
    intro b _
    simp only [pushAll, writeDupF, List.length_nil, Nat.mul_zero, Nat.add_zero]
  | cons s rest ih =>
    intro b h
    simp only [List.length_cons] at h
    have hguard : b.pos + 1 < 2048 := by omega
    have hfl : ¬ b.pos + 2 = 2048 := by omega
    have ih' := ih ⟨bufWrite (bufWrite b.buffer b.pos s) (b.pos + 1) s, b.pos + 2⟩
      (by show b.pos + 2 + 2 * rest.length < 2048; omega)
    simp only [pushAll, push_sample]
    rw [if_pos hguard, if_neg hfl]
    simp only [writeDupF, List.length_cons]
    simp [ih']
    omega

theorem pushAll_flush : ∀ (L : List Int) (b : AudioBackend), L ≠ [] →
    b.pos + 2 * L.length = 2048 →
    pushAll b L
      = some (⟨writeDupF b.buffer b.pos L, 0⟩, [writeDupF b.buffer b.pos L]) := by
  intro L
  induction L with
  | nil => intro b h _; exact absurd rfl h
  | cons s rest ih =>
    intro b _ h
    simp only [List.length_cons] at h
    have hguard : b.pos + 1 < 2048 := by omega
    by_cases hr : rest = []
    · subst hr
      simp only [List.length_nil] at h
      have hfl : b.pos + 2 = 2048 := by omega
      simp only [pushAll, push_sample]
      rw [if_pos hguard, if_pos hfl]
      simp [writeDupF]
    · have hlen : 0 < rest.length := List.length_pos.mpr hr
      have hfl : ¬ b.pos + 2 = 2048 := by omega
      have ih' := ih ⟨bufWrite (bufWrite b.buffer b.pos s) (b.pos + 1) s, b.pos + 2⟩ hr
        (by show b.pos + 2 + 2 * rest.length = 2048; omega)
      simp only [pushAll, push_sample]
      rw [if_pos hguard, if_neg hfl]
      simp only [writeDupF]
      simp [ih']

theorem pushAll_inv : ∀ (L : List Int) (b : AudioBackend),
    b.pos % 2 = 0 → b.pos ≤ 2046 →
    ∃ b' fs, pushAll b L = some (b', fs) ∧ b'.pos % 2 = 0 ∧ b'.pos ≤ 2046 := by
  intro L
  induction L with
  | nil => intro b h1 h2; exact ⟨b, [], rfl, h1, h2⟩
  | cons s rest ih =>
    intro b h1 h2
    have hguard : b.pos + 1 < 2048 := by omega
    by_cases hfl : b.pos + 2 = 2048
    · obtain ⟨b', fs, hpush, hi1, hi2⟩ :=
        ih ⟨bufWrite (bufWrite b.buffer b.pos s) (b.pos + 1) s, 0⟩ rfl (Nat.zero_le _)
      refine ⟨b', bufWrite (bufWrite b.buffer b.pos s) (b.pos + 1) s :: fs, ?_, hi1, hi2⟩
      simp only [pushAll, push_sample]
      rw [if_pos hguard, if_pos hfl]
      simp [hpush]
    · obtain ⟨b', fs, hpush, hi1, hi2⟩ :=
        ih ⟨bufWrite (bufWrite b.buffer b.pos s) (b.pos + 1) s, b.pos + 2⟩
          (by show (b.pos + 2) % 2 = 0; omega) (by show b.pos + 2 ≤ 2046; omega)
      refine ⟨b', fs, ?_, hi1, hi2⟩
      simp only [pushAll, push_sample]
      rw [if_pos hguard, if_neg hfl]
      simp [hpush]

theorem foldl_fbWrite (r : Bool) (fb : Nat → Nat) (y : Nat) :
    ∀ (l : List Nat) (out : Nat → Nat) (j : Nat),
    (l.foldl (fun out x => if (fb y >>> x) % 2 = 0
        then fbWrite out (rotOff r (y * 32 + x)) else out) out) j
    = if ∃ x ∈ l, (fb y >>> x) % 2 = 0 ∧ rotOff r (y * 32 + x) = j
      then 0xffffff else out j := by
  intro l
  induction l with
  | nil => intro out j; simp
  | cons a l ih =>
    intro out j
    simp only [List.foldl_cons]
    rw [ih]
    by_cases hl : ∃ x ∈ l, (fb y >>> x) % 2 = 0 ∧ rotOff r (y * 32 + x) = j
    · obtain ⟨x, hx, hp⟩ := hl
      rw [if_pos ⟨x, hx, hp⟩, if_pos ⟨x, List.mem_cons_of_mem _ hx, hp⟩]
    · rw [if_neg hl]
      by_cases ha : (fb y >>> a) % 2 = 0
      · rw [if_pos ha]
        simp only [fbWrite]
        by_cases hj : j = rotOff r (y * 32 + a)
        · rw [if_pos hj, if_pos ⟨a, List.mem_cons_self a l, ha, hj.symm⟩]
        · rw [if_neg hj, if_neg (by
            rintro ⟨x, hx, h1, h2⟩
            rcases List.mem_cons.mp hx with rfl | hx'
            · exact hj h2.symm
            · exact hl ⟨x, hx', h1, h2⟩)]
      · rw [if_neg ha, if_neg (by
          rintro ⟨x, hx, h1, h2⟩
          rcases List.mem_cons.mp hx with rfl | hx'
          · exact ha h1
          · exact hl ⟨x, hx', h1, h2⟩)]

theorem render_frame_fb_apply (r : Bool) (fb : Nat → Nat) (j : Nat) :
    render_frame_fb r fb j
    = if ∃ y ∈ List.range 32, ∃ x ∈ List.range 32,
          (fb y >>> x) % 2 = 0 ∧ rotOff r (y * 32 + x) = j
      then 0xffffff else 0 := by
  suffices h : ∀ (l : List Nat) (out : Nat → Nat),
      (l.foldl (fun out y => innerRow r fb y out) out) j
      = if ∃ y ∈ l, ∃ x ∈ List.range 32,
            (fb y >>> x) % 2 = 0 ∧ rotOff r (y * 32 + x) = j
        then 0xffffff else out j by
    exact h (List.range 32) (fun _ => 0)
  intro l
  induction l with
  | nil => intro out; simp
  | cons a l ih =>
    intro out
    simp only [List.foldl_cons]
    rw [ih]
    by_cases hl : ∃ y ∈ l, ∃ x ∈ List.range 32,
        (fb y >>> x) % 2 = 0 ∧ rotOff r (y * 32 + x) = j
    · obtain ⟨y, hy, hp⟩ := hl
      rw [if_pos ⟨y, hy, hp⟩, if_pos ⟨y, List.mem_cons_of_mem _ hy, hp⟩]
    · rw [if_neg hl]
      have hrow : innerRow r fb a out j
          = if ∃ x ∈ List.range 32, (fb a >>> x) % 2 = 0 ∧ rotOff r (a * 32 + x) = j
            then 0xffffff else out j := foldl_fbWrite r fb a (List.range 32) out j
      rw [hrow]
      by_cases ha : ∃ x ∈ List.range 32, (fb a >>> x) % 2 = 0 ∧ rotOff r (a * 32 + x) = j
      · rw [if_pos ha, if_pos ⟨a, List.mem_cons_self a l, ha⟩]
      · rw [if_neg ha, if_neg (by
          rintro ⟨y, hy, hp⟩
          rcases List.mem_cons.mp hy with rfl | hy'
          · exact ha hp
          · exact hl ⟨y, hy', hp⟩)]

theorem find_bios_loop_eq : ∀ (l : List EntryResult),
    find_bios_loop l = l.findSome? candidateBios := by
  intro l
  induction l with
  | nil => rfl
  | cons r rest ih =>
    cases r with
    | err =>
      rw [find_bios_loop, List.findSome?_cons]
      simpa [candidateBios] using ih
    | ok e =>
      rw [find_bios_loop, List.findSome?_cons]
      by_cases hf : e.is_file = true
      · by_cases hs : e.len = BIOS_SIZE
        · rw [if_pos hf, if_pos hs]
          have hc : candidateBios (.ok e) = try_bios e := by
            simp [candidateBios, hf, hs]
          rw [hc]
          cases htb : try_bios e <;> simp [htb, ih]
        · rw [if_pos hf, if_neg hs]
          have hc : candidateBios (.ok e) = none := by simp [candidateBios, hs]
          rw [hc]
          simpa using ih
      · rw [if_neg hf]
        have hc : candidateBios (.ok e) = none := by simp [candidateBios, hf]
        rw [hc]
        simpa using ih

/-! ## Claim theorems -/

/-- Claim C5 (confirmed): on a frame step with RTC host-sync disabled the
countdown is untouched and no sync happens; with sync enabled and a nonzero
countdown the counter is decremented once and no sync happens; with sync
enabled and the countdown at zero, the host sync runs, the counter is reset
to the fixed period `RTC_SYNC_DELAY_FRAMES = 60`, and the frame's single
decrement then leaves it at 59. -/
theorem rtc_countdown_per_frame (en : Bool) (c : Nat) (now : Tm) :
    (en = false → render_frame_rtc en c now = some (c, none)) ∧
    (en = true → c ≠ 0 → render_frame_rtc en c now = some (c - 1, none)) ∧
    (en = true → c = 0 → ∀ w, sync_host_rtc now = some w →
      render_frame_rtc en c now = some (RTC_SYNC_DELAY_FRAMES - 1, some w) ∧
      RTC_SYNC_DELAY_FRAMES = 60) := by
  refine ⟨?_, ?_, ?_⟩
  · rintro rfl
    simp [render_frame_rtc]
  · rintro rfl hc
    simp [render_frame_rtc, hc]
  · rintro rfl rfl w hw
    simp [render_frame_rtc, hw, RTC_SYNC_DELAY_FRAMES]

/-- Witness for C5: the three branches at concrete inputs (counter 7 and 0,
sync disabled and enabled, host time `tmGood`). -/
theorem rtc_countdown_per_frame_witness :
    render_frame_rtc false 7 tmGood = some (7, none) ∧
    render_frame_rtc true 7 tmGood = some (6, none) ∧
    render_frame_rtc true 0 tmGood = some (59, some wGood) :=
  ⟨(rtc_countdown_per_frame false 7 tmGood).1 rfl,
   (rtc_countdown_per_frame true 7 tmGood).2.1 rfl (by decide),
   ((rtc_countdown_per_frame true 0 tmGood).2.2 rfl rfl wGood (by decide)).1⟩

/-- Claim C1 counterexample: for the host time `tmBadMin` (minutes field 100),
a binary-to-BCD conversion receives an out-of-range value and the frame step
fails — the `unwrap` panic propagates out of `render_frame` instead of being
logged and skipped. -/
theorem rtc_sync_panic_propagates : render_frame_rtc true 0 tmBadMin = none := by
  decide

/-- Claim C1 (amended): an out-of-range binary-to-BCD conversion makes the
RTC host sync — and with it the frame step — fail (the `unwrap` panic
propagates to `render_frame`'s caller); the frame step never fails provided
every host wall-clock field lies in its normal `struct tm` range. -/
theorem rtc_sync_total_in_range (en : Bool) (c : Nat) (now : Tm)
    (hmin0 : 0 ≤ now.tm_min) (hmin : now.tm_min ≤ 59)
    (hhour0 : 0 ≤ now.tm_hour) (hhour : now.tm_hour ≤ 23)
    (hwday0 : 0 ≤ now.tm_wday) (hwday : now.tm_wday ≤ 6)
    (hmday0 : 1 ≤ now.tm_mday) (hmday : now.tm_mday ≤ 31)
    (hmon0 : 0 ≤ now.tm_mon) (hmon : now.tm_mon ≤ 11)
    (hyear0 : 0 ≤ now.tm_year + 1900) (hyear : now.tm_year + 1900 ≤ 9999) :
    (render_frame_rtc en c now).isSome = true := by
  have hs := sync_host_rtc_isSome now hmin0 hmin hhour0 hhour hwday0 hwday
    hmday0 hmday hmon0 hmon hyear0 hyear
  obtain ⟨w, hw⟩ := Option.isSome_iff_exists.mp hs
  cases en with
  | false => simp [render_frame_rtc]
  | true =>
    by_cases hc : c = 0
    · subst hc
      simp [render_frame_rtc, hw]
    · simp [render_frame_rtc, hc]

/-- Witness for the amended C1: with every field of `tmGood` in range, the
frame step (sync enabled, countdown 0) succeeds. -/
theorem rtc_sync_total_in_range_witness :
    (render_frame_rtc true 0 tmGood).isSome = true :=
  rtc_sync_total_in_range true 0 tmGood (by decide) (by decide) (by decide)
    (by decide) (by decide) (by decide) (by decide) (by decide) (by decide)
    (by decide) (by decide) (by decide)

/-- Claim C7 (confirmed): a push with room writes the sample twice at the
write cursor and advances the cursor by 2 (resetting to 0 on the flush that
fires when the cursor reaches capacity); from a fresh sink, pushing exactly
1024 samples produces exactly one flush — of the full 2048-entry buffer,
holding the input samples pairwise-duplicated in order — and leaves the
cursor at 0, while pushing 1023 samples produces no flush. -/
theorem audio_batching (L : List Int) :
    (∀ (b : AudioBackend) (s : Int), b.pos + 1 < 2048 →
      push_sample b s = some
        (⟨bufWrite (bufWrite b.buffer b.pos s) (b.pos + 1) s,
          if b.pos + 2 = 2048 then 0 else b.pos + 2⟩,
         if b.pos + 2 = 2048 then some (bufWrite (bufWrite b.buffer b.pos s) (b.pos + 1) s)
         else none)) ∧
    (L.length = 1024 →
      pushAll AudioBackend.new L
        = some (⟨writeDupF AudioBackend.new.buffer 0 L, 0⟩,
                [writeDupF AudioBackend.new.buffer 0 L]) ∧
      ∀ i, i < 2048 → writeDupF AudioBackend.new.buffer 0 L i = L.getD (i / 2) 0) ∧
    (L.length = 1023 →
      pushAll AudioBackend.new L
        = some (⟨writeDupF AudioBackend.new.buffer 0 L, 2046⟩, [])) := by
  refine ⟨?_, ?_, ?_⟩
  · intro b s h
    simp only [push_sample]
    rw [if_pos h]
    by_cases hfl : b.pos + 2 = 2048
    · rw [if_pos hfl, if_pos hfl, if_pos hfl]
    · rw [if_neg hfl, if_neg hfl, if_neg hfl]
  · intro h
    constructor
    · have := pushAll_flush L AudioBackend.new
        (by intro he; rw [he] at h; simp at h)
        (by show 0 + 2 * L.length = 2048; omega)
      exact this
    · intro i hi
      have := writeDupF_in L AudioBackend.new.buffer 0 i (Nat.zero_le _)
        (by omega)
      simpa using this
  · intro h
    have h2 : pushAll AudioBackend.new L
        = some (⟨writeDupF AudioBackend.new.buffer 0 L, 0 + 2 * L.length⟩, []) :=
      pushAll_no_flush L AudioBackend.new (by show 0 + 2 * L.length < 2048; omega)
    rw [h2, h]

/-- Witness for C7: a first push on a fresh sink, 1024 concrete samples
producing one flush, and 1023 concrete samples producing none. -/
theorem audio_batching_witness :
    push_sample AudioBackend.new 3
      = some (⟨bufWrite (bufWrite AudioBackend.new.buffer 0 3) 1 3, 2⟩, none) ∧
    pushAll AudioBackend.new L1024
      = some (⟨writeDupF AudioBackend.new.buffer 0 L1024, 0⟩,
              [writeDupF AudioBackend.new.buffer 0 L1024]) ∧
    pushAll AudioBackend.new L1023
      = some (⟨writeDupF AudioBackend.new.buffer 0 L1023, 2046⟩, []) :=
  ⟨(audio_batching L1024).1 AudioBackend.new 3 (by decide),
   ((audio_batching L1024).2.1 (List.length_replicate 1024 3)).1,
   (audio_batching L1023).2.2 (List.length_replicate 1023 4)⟩

/-- Claim C6 (confirmed): the frame conversion maps a 0 bit at framebuffer
offset `k` to an opaque white pixel 0xFFFFFF and a 1 bit to the black pixel
0x000000; the output offset is `1024 - k - 1` exactly when rotation is
enabled in the configuration and the engine reports rotated mode, and `k`
otherwise. -/
theorem framebuffer_conversion (en rotated : Bool) (fb : Nat → Nat) (k : Nat)
    (hk : k < 1024) :
    render_frame_fb (en && rotated) fb (rotOff (en && rotated) k)
      = if (fb (k / 32) >>> (k % 32)) % 2 = 0 then 0xffffff else 0 := by
  rw [render_frame_fb_apply]
  by_cases hbit : (fb (k / 32) >>> (k % 32)) % 2 = 0
  · have hex : ∃ y ∈ List.range 32, ∃ x ∈ List.range 32,
        (fb y >>> x) % 2 = 0 ∧ rotOff (en && rotated) (y * 32 + x)
          = rotOff (en && rotated) k := by
      refine ⟨k / 32, List.mem_range.mpr (by omega), k % 32,
        List.mem_range.mpr (by omega), hbit, ?_⟩
      rw [show k / 32 * 32 + k % 32 = k from by omega]
    rw [if_pos hex, if_pos hbit]
  · have hnex : ¬ ∃ y ∈ List.range 32, ∃ x ∈ List.range 32,
        (fb y >>> x) % 2 = 0 ∧ rotOff (en && rotated) (y * 32 + x)
          = rotOff (en && rotated) k := by
      rintro ⟨y, hy, x, hx, h1, h2⟩
      replace hy := List.mem_range.mp hy
      replace hx := List.mem_range.mp hx
      have hoff : y * 32 + x = k := by
        unfold rotOff at h2
        split at h2 <;> omega
      have hy' : y = k / 32 := by omega
      have hx' : x = k % 32 := by omega
      rw [hy', hx'] at h1
      exact hbit h1
    rw [if_neg hnex, if_neg hbit]

/-- Witness for C6: the rotated conversion evaluated at the single set bit of
`fbOne` (framebuffer offset 0), which yields a black pixel. -/
theorem framebuffer_conversion_witness :
    render_frame_fb (true && true) fbOne (rotOff (true && true) 0)
      = if (fbOne (0 / 32) >>> (0 % 32)) % 2 = 0 then 0xffffff else 0 :=
  framebuffer_conversion true true fbOne 0 (by decide)

/-- Claim C10 (confirmed): every sequence of pushes from a fresh sink
succeeds — no buffer index is ever out of bounds — and leaves the write
cursor even and at most 2046, so the flush test `pos = 2048` is hit exactly
rather than skipped. -/
theorem audio_cursor_invariant (L : List Int) :
    ∃ b fs, pushAll AudioBackend.new L = some (b, fs) ∧ b.pos % 2 = 0 ∧ b.pos ≤ 2046 :=
  pushAll_inv L AudioBackend.new rfl (Nat.zero_le _)

/-- Claim C3 (confirmed): whenever the restore fails — decoder construction
failure, decode failure, or failure of the firmware re-attachment step — the
live adapter is left exactly as it was (all-or-nothing). -/
theorem load_state_all_or_nothing (self : Context) (input : DecodeOutcome)
    (sysdir : Option (List EntryResult))
    (h : (load_state self input sysdir).2 = false) :
    (load_state self input sysdir).1 = self := by
  cases input with
  | ctorFail => rfl
  | decodeFail => rfl
  | ok cpu =>
    cases hb : find_bios sysdir with
    | none => simp [load_state, hb]
    | some b => simp [load_state, hb] at h

/-- Witness for C3: a failing restore (decoder construction failure) leaves
the concrete adapter `ctxA` unchanged. -/
theorem load_state_all_or_nothing_witness :
    (load_state ctxA .ctorFail none).2 = false ∧
    (load_state ctxA .ctorFail none).1 = ctxA :=
  ⟨rfl, load_state_all_or_nothing ctxA .ctorFail none rfl⟩

/-- Claim C2 counterexample: on a successful restore, the firmware of the
re-activated engine is the one found by re-scanning the system directory
(id 2 here), not a copy of the live engine's current firmware (id 1) — the
claim that the live engine's current firmware image is copied into the
decoded state, and that no artifact is re-read from the file system, fails. -/
theorem load_state_firmware_not_from_live :
    (load_state ctxA (.ok cpuB) sysB).2 = true ∧
    (load_state ctxA (.ok cpuB) sysB).1.cpu.bios ≠ ctxA.cpu.bios := by
  constructor
  · rfl
  · decide

/-- Claim C2 (amended): on every successful restore the decoded state
replaces the live engine's state; the live engine's current storage contents
are copied into it (nothing storage-related is taken from the blob), a fresh
audio batching sink with write cursor 0 is attached, and the firmware is
re-discovered by scanning the system directory — a fresh blocking
file-system read during deserialize — rather than copied from the live
engine or taken from the blob. -/
theorem load_state_success_shape (self : Context) (cpu : Cpu)
    (sysdir : Option (List EntryResult)) (b : Bios)
    (h : find_bios sysdir = some b) :
    load_state self (.ok cpu) sysdir
      = ({ self with cpu := { cpu with
              bios := b
              flash := self.cpu.flash
              dac_backend := AudioBackend.new } }, true)
    ∧ AudioBackend.new.pos = 0 := by
  constructor
  · simp [load_state, h]
  · rfl

/-- Witness for C2 (amended): the concrete restore of `cpuB` into `ctxA`
with directory `sysB`. -/
theorem load_state_success_shape_witness :
    load_state ctxA (.ok cpuB) sysB
      = ({ ctxA with cpu := { cpuB with
              bios := ⟨2⟩
              flash := ctxA.cpu.flash
              dac_backend := AudioBackend.new } }, true)
    ∧ AudioBackend.new.pos = 0 :=
  load_state_success_shape ctxA cpuB sysB ⟨2⟩ (by decide)

/-- Claim C4 (confirmed): serialize followed immediately by deserialize on
the same adapter succeeds and reproduces the adapter exactly, up to the
defined substitution (fresh audio sink; identical firmware when the
directory re-scan yields the live BIOS; storage copied from the live
engine); consequently any deterministic engine produces identical frame
output sequences from the original and the round-tripped state on every
input sequence. -/
theorem savestate_roundtrip (self : Context) (sysdir : Option (List EntryResult))
    (h : find_bios sysdir = some self.cpu.bios) :
    load_state self (.ok (decode (save_state self))) sysdir
      = ({ self with cpu := { self.cpu with dac_backend := AudioBackend.new } }, true)
    ∧ ∀ step render inputs,
        runFrames step render
          (visibleState (load_state self (.ok (decode (save_state self))) sysdir).1.cpu)
          inputs
        = runFrames step render (visibleState self.cpu) inputs := by
  obtain ⟨⟨bios, flash, dacb, core⟩, rhs, rle, rcnt, rml⟩ := self
  have h1 : load_state ⟨⟨bios, flash, dacb, core⟩, rhs, rle, rcnt, rml⟩
        (.ok (decode (save_state ⟨⟨bios, flash, dacb, core⟩, rhs, rle, rcnt, rml⟩))) sysdir
      = (⟨⟨bios, flash, AudioBackend.new, core⟩, rhs, rle, rcnt, rml⟩, true) := by
    simp [load_state, h, decode, save_state, encode]
  refine ⟨h1, ?_⟩
  intro step render inputs
  rw [h1]
  rfl

/-- Witness for C4: the concrete adapter `ctxA` round-tripped through the
codec with directory `sysA` (which re-finds `ctxA`'s own BIOS). -/
theorem savestate_roundtrip_witness :
    load_state ctxA (.ok (decode (save_state ctxA))) sysA
      = ({ ctxA with cpu := { ctxA.cpu with dac_backend := AudioBackend.new } }, true) ∧
    runFrames (fun s _ => s) (fun _ => [])
        (visibleState (load_state ctxA (.ok (decode (save_state ctxA))) sysA).1.cpu) [0]
      = runFrames (fun s _ => s) (fun _ => []) (visibleState ctxA.cpu) [0] :=
  ⟨(savestate_roundtrip ctxA sysA (by decide)).1,
   (savestate_roundtrip ctxA sysA (by decide)).2 (fun s _ => s) (fun _ => []) [0]⟩

/-- Claim C9 (confirmed): BIOS discovery fails when the directory is
unavailable; over readable entries it returns exactly the first candidate in
iteration order — considering only regular files of exactly the expected
size — that the content recognizer accepts; in particular, when everything
before a valid firmware entry yields no accepted candidate, that entry is
returned no matter what follows it. -/
theorem find_bios_spec :
    find_bios none = none ∧
    (∀ entries, find_bios (some entries) = firstValidBios entries) ∧
    (∀ (l1 l2 : List EntryResult) (e : DirEntry) (b : Bios),
      (∀ r ∈ l1, candidateBios r = none) →
      e.is_file = true → e.len = BIOS_SIZE → try_bios e = some b →
      find_bios (some (l1 ++ .ok e :: l2)) = some b) := by
  refine ⟨rfl, ?_, ?_⟩
  · intro entries
    exact find_bios_loop_eq entries
  · intro l1 l2 e b h1 hf hs htb
    show find_bios_loop (l1 ++ .ok e :: l2) = some b
    rw [find_bios_loop_eq, List.findSome?_append, List.findSome?_eq_none_iff.mpr h1,
      Option.none_or, List.findSome?_cons]
    simp [candidateBios, hf, hs, htb]

/-- Witness for C9: four rejected entries (a read error, a wrong-size file,
a non-file, a rejected right-size file) followed by a valid firmware (id 3)
and another valid firmware behind it — discovery returns the first valid
one. -/
theorem find_bios_spec_witness :
    find_bios (some (dirNoise ++ .ok eGood :: dirTail)) = some ⟨3⟩ :=
  find_bios_spec.2.2 dirNoise dirTail eGood ⟨3⟩ (by decide) rfl rfl rfl

/-- Claim C8 (confirmed): whenever the RTC host sync completes, the seconds
register it writes is the BCD encoding of the host seconds clamped to 0-59
(for nonnegative host seconds, clamping means `min _ 59`). -/
theorem rtc_seconds_clamped (now : Tm) (w : RtcWrite) (hs : 0 ≤ now.tm_sec)
    (h : sync_host_rtc now = some w) :
    Bcd.from_binary (min now.tm_sec.toNat 59) = some w.seconds := by
  simp only [sync_host_rtc, bind, Option.bind_eq_some] at h
  obtain ⟨c1, hc1, s1, hs1, m1, hm1, h1, hh1, w1, hw1, d1, hd1, mo1, hmo1, y1, hy1, heq⟩ := h
  cases heq
  have : min now.tm_sec.toNat 59
      = (if 0 ≤ now.tm_sec ∧ now.tm_sec ≤ 59 then now.tm_sec.toNat else 59) := by
    split <;> omega
  rw [this, hs1]

/-- Witness for C8: the leap-second host time `tmLeap` (seconds = 61) yields
a seconds register holding BCD 59 (`wLeap.seconds = 0x59`). -/
theorem rtc_seconds_clamped_witness :
    Bcd.from_binary (min tmLeap.tm_sec.toNat 59) = some wLeap.seconds :=
  rtc_seconds_clamped tmLeap wLeap (by decide) (by decide)

end Pocky
